import Mathlib

/-!
Verification of the retrieval subsystem of ocnguye/guidebot-vercel
(`src/lib/reports.ts`): corpus loading with per-record embedding
generation, the module-level corpus store, and top-k retrieval by
similarity score.

Modelling conventions:
* JS numbers in report vectors are modelled as `ℚ`; the `topK` argument is
  modelled as `ℤ` because `Array.prototype.slice` treats negative bounds
  specially.
* The Xenova embedding model (`@xenova/transformers`, an external npm
  dependency) is modelled as an oracle `Nat → String → Except EmbedErr (List ℚ)`
  indexed by the sequence number of the call inside the operation, so a
  single run is deterministic while distinct calls may behave differently
  (e.g. a transient rate-limit).  Each `await embeddingsModel(...)` in the
  source consumes one oracle index; operations also report how many
  embedding calls they made.
* The module-level mutable variables `reports`, `embeddingsModel` and
  `isLoaded` of `reports.ts` are gathered in a `Store` record that each
  operation takes and (for `loadReports`) returns.  `embeddingsModel` only
  matters through being `null` or not, so it is the Boolean `hasModel`.
* `Array.prototype.sort` with the comparator `(a, b) => b.score - a.score`
  is a stable sort placing higher scores first; it is modelled by
  `List.insertionSort` with the relation `scoreGE` (insertion sort is
  stable, and the output of a stable sort is uniquely determined by the
  comparator, so the choice of stable algorithm is immaterial).
* `String.prototype.trim` is modelled by `jsTrim`, stripping whitespace
  from both ends of the character list.
-/

namespace GuideBot

/-- Shape of one JSONL corpus line after `JSON.parse` (`reports.ts` lines
12-16): the loader reads `obj.ContentText || obj.text || ""`, so only
those two optional string fields matter. -/
structure ParsedReport where
  ContentText : Option String
  text : Option String
deriving DecidableEq, Repr

/-- A corpus entry (`reports.ts` lines 35-39). -/
structure Report where
  id : Nat
  text : String
  embedding : List ℚ
deriving DecidableEq, Repr

/-- A report together with its similarity score (`reports.ts` lines 18-20,
built by the spread `{ ...r, score }`). -/
structure ScoredReport extends Report where
  score : ℚ
deriving DecidableEq, Repr

/-- Failure of a single embedding call.  The source treats every failure
identically, but the rate-limit case is distinguished so that claims about
rate-limit handling can be stated. -/
inductive EmbedErr where
  | rateLimited
  | other (msg : String)
deriving DecidableEq, Repr

/-- The errors thrown by `reports.ts`, one constructor per `throw` site. -/
inductive Err where
  | reportsFileNotFound
  | modelLoadFailed (msg : String)
  | noEmbeddingsGenerated
  | reportsNotLoaded
  | embeddingsModelNotAvailable
  | noValidReports
  | queryEmbeddingFailed (e : EmbedErr)
deriving DecidableEq, Repr

/-- The module-level mutable state of `reports.ts` (lines 41-43):
`reports`, `embeddingsModel` (abstracted to whether it is non-null) and
`isLoaded`. -/
structure Store where
  reports : List Report
  hasModel : Bool
  isLoaded : Bool
deriving DecidableEq, Repr

/-- The initial module state: `reports = []`, `embeddingsModel = null`,
`isLoaded = false`. -/
def Store.init : Store := ⟨[], false, false⟩

/-- The external world as seen by one `loadReports` run: whether the JSONL
file exists, the parse outcome of each (non-empty) line, whether the
Xenova pipeline initializes, and the embedding oracle. -/
structure LoadWorld where
  fileExists : Bool
  lines : List (Option ParsedReport)
  modelInit : Except String Unit
  embed : Nat → String → Except EmbedErr (List ℚ)

/-- Model of `String.prototype.trim`: drop whitespace characters from both
ends. -/
def jsTrim (s : String) : String :=
  ⟨((s.data.dropWhile Char.isWhitespace).reverse.dropWhile Char.isWhitespace).reverse⟩

/-- Model of the JS expression `a || b || ""` on two possibly-missing
string fields: a missing field and the empty string are both falsy. -/
def jsOrString (a b : Option String) : String :=
  if a.getD "" ≠ "" then a.getD ""
  else if b.getD "" ≠ "" then b.getD ""
  else ""

/-- The parsing stage of `loadReports` (`reports.ts` lines 65-83): map
each line to a report with the line's index as `id`, the trimmed text and
an empty embedding, skipping lines that fail to parse or whose extracted
text is empty after trimming.  The counter argument is the index of the
first line of the remaining list. -/
def parseReports : Nat → List (Option ParsedReport) → List Report
  | _, [] => []
  | i, line :: rest =>
    match line with
    | none => parseReports (i + 1) rest
    | some obj =>
      let text := jsOrString obj.ContentText obj.text
      if jsTrim text = "" then parseReports (i + 1) rest
      else ⟨i, jsTrim text, []⟩ :: parseReports (i + 1) rest

/-- The embedding stage of `loadReports` (`reports.ts` lines 121-160): one
embedding call per report, in order; on success the report's embedding is
set to the returned vector, on failure it is set to `[]`.  The counter is
the oracle index of the next call.  The batching of the source (slices of
5) has no observable effect: there is no inter-batch pause and the
batch-level `catch` can only fire on a `null` model, which was just
assigned. -/
def embedLoop (embed : Nat → String → Except EmbedErr (List ℚ)) :
    Nat → List Report → List Report
  | _, [] => []
  | i, r :: rs =>
    (match embed i r.text with
      | .ok v => { r with embedding := v }
      | .error _ => { r with embedding := [] }) :: embedLoop embed (i + 1) rs

instance instDecEqExcept {ε α : Type} [DecidableEq ε] [DecidableEq α] :
    DecidableEq (Except ε α) := fun x y =>
  match x, y with
  | .ok a, .ok b =>
    if h : a = b then .isTrue (by rw [h]) else .isFalse (by simp [h])
  | .error a, .error b =>
    if h : a = b then .isTrue (by rw [h]) else .isFalse (by simp [h])
  | .ok _, .error _ => .isFalse (fun h => Except.noConfusion h)
  | .error _, .ok _ => .isFalse (fun h => Except.noConfusion h)

/-- Result of a `loadReports` run: the new module state, the returned or
thrown outcome, and how many embedding calls were made. -/
structure LoadResult where
  store : Store
  result : Except Err Unit
  embedCalls : Nat
deriving DecidableEq, Repr

/-- Model of `loadReports` (`reports.ts` lines 48-177).  If `isLoaded` it
returns at once.  Otherwise it checks the file, reassigns the module-level
`reports` to the parse result, initializes the embedding model (on failure
the error propagates with `reports` already replaced), runs the embedding
loop, and throws `noEmbeddingsGenerated` if no report ended with a
non-empty embedding; only after that check does it set `isLoaded`. -/
def loadReports (st : Store) (w : LoadWorld) : LoadResult :=
  if st.isLoaded then ⟨st, .ok (), 0⟩
  else if w.fileExists = false then ⟨st, .error .reportsFileNotFound, 0⟩
  else
    let parsed := parseReports 0 w.lines
    match w.modelInit with
    | .error msg => ⟨{ st with reports := parsed }, .error (.modelLoadFailed msg), 0⟩
    | .ok _ =>
      let embedded := embedLoop w.embed 0 parsed
      let st' : Store := { st with reports := embedded, hasModel := true }
      let successfulEmbeddings := (embedded.filter fun r => 0 < r.embedding.length).length
      if successfulEmbeddings = 0 then ⟨st', .error .noEmbeddingsGenerated, parsed.length⟩
      else ⟨{ st' with isLoaded := true }, .ok (), parsed.length⟩

/-- Descending-score order used by the sort comparator
`(a, b) => b.score - a.score`: `a` may stay before `b` exactly when the
comparator is non-positive, i.e. `b.score ≤ a.score`. -/
def scoreGE (a b : ScoredReport) : Prop := b.score ≤ a.score

instance : DecidableRel scoreGE := fun a b => inferInstanceAs (Decidable (b.score ≤ a.score))

instance : IsTotal ScoredReport scoreGE := ⟨fun a b => le_total b.score a.score⟩

instance : IsTrans ScoredReport scoreGE := ⟨fun _ _ _ h1 h2 => le_trans h2 h1⟩

/-- Model of `l.slice(0, e)` for an arbitrary (possibly negative) `e`: a
negative end index counts from the end of the array, clamped at 0. -/
def jsSliceZeroTo {α : Type} (l : List α) (e : ℤ) : List α :=
  if e < 0 then l.take ((l.length : ℤ) + e).toNat else l.take e.toNat

/-- Result of a `retrieveRelevantReports` run: the returned list or thrown
error, and how many embedding calls were made. -/
structure RetrieveResult where
  result : Except Err (List ScoredReport)
  embedCalls : Nat
deriving DecidableEq, Repr

/-- The local `validReports` of `retrieveRelevantReports` (`reports.ts`
line 203): the stored reports whose embedding is non-empty. -/
def validReports (st : Store) : List Report :=
  st.reports.filter fun r => 0 < r.embedding.length

/-- The local `scored` of `retrieveRelevantReports` (`reports.ts` lines
209-215): each valid report with its similarity to the query vector,
built by the spread `{ ...r, score }`. -/
def scoredReports (sim : List ℚ → List ℚ → ℚ) (queryVector : List ℚ) (st : Store) :
    List ScoredReport :=
  (validReports st).map fun r => ScoredReport.mk r (sim queryVector r.embedding)

/-- Model of `retrieveRelevantReports` (`reports.ts` lines 182-233),
parameterized by the similarity primitive `sim` (the `cosine-similarity`
npm import at line 4) and the query-embedding oracle.  After the
not-loaded and no-model guards it embeds the query (one oracle call,
whose failure is rethrown), filters the store to reports with non-empty
embeddings, throws if none remain, scores each valid report, stable-sorts
by score descending and returns `slice(0, topK)`.  The query string is
only passed to the embedding call: the source never validates or trims
it. -/
def retrieveRelevantReports (sim : List ℚ → List ℚ → ℚ) (st : Store)
    (embed : Nat → String → Except EmbedErr (List ℚ)) (query : String) (topK : ℤ) :
    RetrieveResult :=
  if st.isLoaded = false then ⟨.error .reportsNotLoaded, 0⟩
  else if st.hasModel = false then ⟨.error .embeddingsModelNotAvailable, 0⟩
  else
    match embed 0 query with
    | .error e => ⟨.error (.queryEmbeddingFailed e), 1⟩
    | .ok queryVector =>
      if (validReports st).length = 0 then ⟨.error .noValidReports, 1⟩
      else
        ⟨.ok (jsSliceZeroTo
          ((scoredReports sim queryVector st).insertionSort scoreGE) topK), 1⟩

/-- Model of `areReportsLoaded` (`reports.ts` lines 236-238). -/
def areReportsLoaded (st : Store) : Bool := st.isLoaded

/-- Model of `getReportCount` (`reports.ts` lines 241-243). -/
def getReportCount (st : Store) : Nat := st.reports.length

/-- Dot product of two JS number arrays (pairwise up to the shorter
length). -/
def dotList (a b : List ℚ) : ℚ := ((a.zip b).map fun p => p.1 * p.2).sum

/-- Squared Euclidean norm of a vector. -/
def normSq (a : List ℚ) : ℚ := dotList a a

/-- Modelled from the spec: the `cosineSimilarity` primitive is the npm
package `cosine-similarity` imported at `reports.ts` line 4; its source is
not part of the repository, so it is modelled from spec §4.4: the standard
dot-product-over-norms formula with a guard returning 0 on a zero-norm
input.  The square root on rationals is not exactly representable, so it
is abstracted as the parameter `sqrt`; the zero-norm guard makes the
claims below independent of it. -/
def cosineSimilarity (sqrt : ℚ → ℚ) (a b : List ℚ) : ℚ :=
  if normSq a = 0 ∨ normSq b = 0 then 0
  else dotList a b / (sqrt (normSq a) * sqrt (normSq b))

/-!
Reference-semantics rendering of `retrieveRelevantReports`, used to settle
the aliasing question: in JavaScript the spread `{ ...r, score }` copies
the `embedding` field as a *reference* to the same array object, not as a
fresh array.  Here each report's `embedding` field is an index into a heap
of arrays, so reference sharing between the returned entries and the
stored reports is observable.
-/

/-- A stored report whose `embedding` field holds a reference (heap index)
to an array object rather than the array itself. -/
structure RefReport where
  id : Nat
  text : String
  embedding : Nat
deriving DecidableEq, Repr

/-- A scored entry in the reference model; built by the spread
`{ ...r, score }`, which copies the `embedding` reference unchanged. -/
structure ScoredRefReport extends RefReport where
  score : ℚ
deriving DecidableEq, Repr

/-- The module state in the reference model. -/
structure RefStore where
  reports : List RefReport
  hasModel : Bool
  isLoaded : Bool
deriving DecidableEq, Repr

/-- Read the array a reference points to (out-of-range references
dereference to the empty array; they do not occur in the states used
below). -/
def deref (heap : List (List ℚ)) (r : Nat) : List ℚ := (heap[r]?).getD []

/-- Descending-score order on scored entries of the reference model. -/
def scoreGERef (a b : ScoredRefReport) : Prop := b.score ≤ a.score

instance : DecidableRel scoreGERef := fun a b =>
  inferInstanceAs (Decidable (b.score ≤ a.score))

instance : IsTotal ScoredRefReport scoreGERef := ⟨fun a b => le_total b.score a.score⟩

instance : IsTrans ScoredRefReport scoreGERef := ⟨fun _ _ _ h1 h2 => le_trans h2 h1⟩

/-- Result of a retrieval run in the reference model: the module state and
the heap after the call, the outcome, and the number of embedding calls. -/
structure RetrieveRefResult where
  store : RefStore
  heap : List (List ℚ)
  result : Except Err (List ScoredRefReport)
  embedCalls : Nat
deriving DecidableEq, Repr

/-- The local `validReports` in the reference model: reports whose
referenced embedding array is non-empty. -/
def validRefReports (heap : List (List ℚ)) (st : RefStore) : List RefReport :=
  st.reports.filter fun r => 0 < (deref heap r.embedding).length

/-- The local `scored` in the reference model: the spread `{ ...r, score }`
copies `r.embedding` (a reference) into the new entry. -/
def scoredRefReports (sim : List ℚ → List ℚ → ℚ) (queryVector : List ℚ)
    (heap : List (List ℚ)) (st : RefStore) : List ScoredRefReport :=
  (validRefReports heap st).map fun r =>
    ScoredRefReport.mk r (sim queryVector (deref heap r.embedding))

/-- Model of `retrieveRelevantReports` with reference semantics for the
embedding arrays.  The store and the heap are returned so that the
absence of writes to either is a stated fact rather than a modelling
artifact: the function never assigns to the module variables and never
writes to an embedding array (the sort permutes the fresh `scored` array
in place, which is invisible here). -/
def retrieveRelevantReportsRef (sim : List ℚ → List ℚ → ℚ) (st : RefStore)
    (heap : List (List ℚ)) (embed : Nat → String → Except EmbedErr (List ℚ))
    (query : String) (topK : ℤ) : RetrieveRefResult :=
  if st.isLoaded = false then ⟨st, heap, .error .reportsNotLoaded, 0⟩
  else if st.hasModel = false then ⟨st, heap, .error .embeddingsModelNotAvailable, 0⟩
  else
    match embed 0 query with
    | .error e => ⟨st, heap, .error (.queryEmbeddingFailed e), 1⟩
    | .ok queryVector =>
      if (validRefReports heap st).length = 0 then ⟨st, heap, .error .noValidReports, 1⟩
      else
        ⟨st, heap, .ok (jsSliceZeroTo
          ((scoredRefReports sim queryVector heap st).insertionSort scoreGERef) topK), 1⟩

/-! Supporting lemmas. -/

theorem embedLoop_length (embed : Nat → String → Except EmbedErr (List ℚ)) :
    ∀ (i : Nat) (rs : List Report), (embedLoop embed i rs).length = rs.length
  | _, [] => rfl
  | i, _ :: rs => by
    simp only [embedLoop, List.length_cons, embedLoop_length embed (i + 1) rs]

theorem embedLoop_getElem (embed : Nat → String → Except EmbedErr (List ℚ)) :
    ∀ (rs : List Report) (i j : Nat),
      (embedLoop embed i rs)[j]? = (rs[j]?).map fun r =>
        match embed (i + j) r.text with
        | .ok v => { r with embedding := v }
        | .error _ => { r with embedding := [] }
  | [], _, _ => by simp [embedLoop]
  | r :: rs, i, 0 => by simp [embedLoop]
  | r :: rs, i, j + 1 => by
    have hidx : i + 1 + j = i + (j + 1) := by omega
    simp only [embedLoop, List.getElem?_cons_succ]
    rw [embedLoop_getElem embed rs (i + 1) j, hidx]

theorem parseReports_length_pos :
    ∀ (i : Nat) (lines : List (Option ParsedReport)) (obj : ParsedReport),
      some obj ∈ lines → jsTrim (jsOrString obj.ContentText obj.text) ≠ "" →
      0 < (parseReports i lines).length
  | _, [], _, h, _ => absurd h (List.not_mem_nil _)
  | i, line :: rest, obj, h, hne => by
    rcases List.mem_cons.mp h with h1 | h2
    · cases h1
      simp only [parseReports, if_neg hne, List.length_cons]
      omega
    · match line with
      | none =>
        simpa only [parseReports] using parseReports_length_pos (i + 1) rest obj h2 hne
      | some obj' =>
        by_cases h' : jsTrim (jsOrString obj'.ContentText obj'.text) = ""
        · simpa only [parseReports, if_pos h'] using
            parseReports_length_pos (i + 1) rest obj h2 hne
        · simp only [parseReports, if_neg h', List.length_cons]
          omega

theorem jsSliceZeroTo_sublist {α : Type} (l : List α) (e : ℤ) :
    List.Sublist (jsSliceZeroTo l e) l := by
  unfold jsSliceZeroTo
  split <;> exact List.take_sublist ..

theorem jsSliceZeroTo_of_nonneg {α : Type} (l : List α) (e : ℤ) (h : 0 ≤ e) :
    jsSliceZeroTo l e = l.take e.toNat := by
  unfold jsSliceZeroTo
  rw [if_neg (by omega)]

theorem jsSliceZeroTo_length_neg {α : Type} (l : List α) (e : ℤ) (h : e < 0) :
    (jsSliceZeroTo l e).length = ((l.length : ℤ) + e).toNat := by
  unfold jsSliceZeroTo
  rw [if_pos h, List.length_take]
  omega

/-- Every entry of a successfully returned retrieval list is one of the
stored reports, scored, and has a non-empty embedding. -/
theorem retrieve_ok_mem (sim : List ℚ → List ℚ → ℚ) (st : Store)
    (embed : Nat → String → Except EmbedErr (List ℚ)) (q : String) (k : ℤ)
    (res : List ScoredReport)
    (h : (retrieveRelevantReports sim st embed q k).result = .ok res) :
    ∀ s ∈ res, s.toReport ∈ st.reports ∧ 0 < s.embedding.length := by
  intro s hs
  unfold retrieveRelevantReports at h
  split at h
  · simp at h
  split at h
  · simp at h
  split at h
  · simp at h
  next queryVector _ =>
    split at h
    · simp at h
    simp only at h
    cases h
    have h1 : s ∈ (scoredReports sim queryVector st).insertionSort scoreGE :=
      (jsSliceZeroTo_sublist _ _).subset hs
    have h2 : s ∈ scoredReports sim queryVector st :=
      (List.mem_insertionSort _).mp h1
    obtain ⟨r, hr, hrs⟩ := List.mem_map.mp h2
    obtain ⟨hmem, hpos⟩ := List.mem_filter.mp hr
    cases hrs
    exact ⟨hmem, of_decide_eq_true hpos⟩

/-- Every entry of a successfully returned retrieval list in the
reference model carries, unchanged, the fields of one of the stored
reports — in particular the same `embedding` array reference. -/
theorem retrieveRef_ok_mem (sim : List ℚ → List ℚ → ℚ) (st : RefStore)
    (heap : List (List ℚ)) (embed : Nat → String → Except EmbedErr (List ℚ))
    (q : String) (k : ℤ) (res : List ScoredRefReport)
    (h : (retrieveRelevantReportsRef sim st heap embed q k).result = .ok res) :
    ∀ s ∈ res, s.toRefReport ∈ st.reports := by
  intro s hs
  unfold retrieveRelevantReportsRef at h
  split at h
  · simp at h
  split at h
  · simp at h
  split at h
  · simp at h
  next queryVector _ =>
    split at h
    · simp at h
    simp only at h
    cases h
    have h1 : s ∈ (scoredRefReports sim queryVector heap st).insertionSort scoreGERef :=
      (jsSliceZeroTo_sublist _ _).subset hs
    have h2 : s ∈ scoredRefReports sim queryVector heap st :=
      (List.mem_insertionSort _).mp h1
    obtain ⟨r, hr, hrs⟩ := List.mem_map.mp h2
    cases hrs
    exact (List.mem_filter.mp hr).1

/-! Concrete fixtures used by witnesses and counterexamples. -/

/-- A similarity function all of whose scores are 0 (so the stable sort
keeps corpus order and the rationals stay kernel-computable). -/
def sim0 : List ℚ → List ℚ → ℚ := fun _ _ => 0

/-- An embedding oracle that always succeeds with the vector `[1]`. -/
def embedOk1 : Nat → String → Except EmbedErr (List ℚ) := fun _ _ => .ok [1]

/-- An embedding oracle that always fails. -/
def embedFail : Nat → String → Except EmbedErr (List ℚ) :=
  fun _ _ => .error (.other "boom")

/-- An embedding oracle whose first call fails with a rate-limit signal
and whose every later call succeeds: a single retry of the failed call
would succeed. -/
def embedRateLimitedOnce : Nat → String → Except EmbedErr (List ℚ) :=
  fun n _ => if n = 0 then .error .rateLimited else .ok [1]

/-- A two-line corpus with texts `"a"` and `"b"`. -/
def linesAB : List (Option ParsedReport) := [some ⟨some "a", none⟩, some ⟨some "b", none⟩]

/-- A one-line corpus with text `"a"`. -/
def lineA : List (Option ParsedReport) := [some ⟨some "a", none⟩]

/-- A loaded two-report store in which both reports have embeddings. -/
def stLoaded2 : Store := ⟨[⟨0, "a", [1]⟩, ⟨1, "b", [1]⟩], true, true⟩

/-- A loaded one-report store in the reference model: the single report's
embedding references heap cell 0. -/
def stRef1 : RefStore := ⟨[⟨0, "a", 0⟩], true, true⟩

/-- The heap for `stRef1`: one embedding array `[1]` at cell 0. -/
def heap1 : List (List ℚ) := [[1]]

/-! Claim theorems. -/

/-- C8: once the store is loaded, `loadReports` is a no-op: it returns
immediately, makes no embedding call, and leaves the stored reports,
their embeddings and the loaded flag exactly as they were. -/
theorem loadReports_idempotent_once_loaded (st : Store) (w : LoadWorld)
    (h : st.isLoaded = true) : loadReports st w = ⟨st, .ok (), 0⟩ := by
  simp [loadReports, h]

theorem loadReports_idempotent_once_loaded_witness :
    stLoaded2.isLoaded = true ∧
      loadReports stLoaded2 ⟨true, linesAB, .ok (), embedOk1⟩ = ⟨stLoaded2, .ok (), 0⟩ :=
  ⟨by decide,
    loadReports_idempotent_once_loaded stLoaded2 ⟨true, linesAB, .ok (), embedOk1⟩ (by decide)⟩

/-- C6: when the embedding step succeeds for zero records, `loadReports`
fails with the no-embeddings error instead of completing, the store is
not published as loaded (`areReportsLoaded` is `false`), and a subsequent
retrieval on the resulting store fails with the not-loaded error. -/
theorem loadReports_zero_embeddings_fatal (st : Store) (w : LoadWorld)
    (h1 : st.isLoaded = false) (h2 : w.fileExists = true) (h3 : w.modelInit = .ok ())
    (h4 : ∀ r ∈ embedLoop w.embed 0 (parseReports 0 w.lines), r.embedding = []) :
    (loadReports st w).result = .error .noEmbeddingsGenerated ∧
    areReportsLoaded (loadReports st w).store = false ∧
    ∀ sim embed2 q k,
      (retrieveRelevantReports sim (loadReports st w).store embed2 q k).result =
        .error .reportsNotLoaded := by
  have hfilter :
      (embedLoop w.embed 0 (parseReports 0 w.lines)).filter
        (fun r => 0 < r.embedding.length) = [] := by
    rw [List.filter_eq_nil_iff]
    intro r hr
    simp [h4 r hr]
  have heq : loadReports st w =
      ⟨{ st with reports := embedLoop w.embed 0 (parseReports 0 w.lines), hasModel := true },
        .error .noEmbeddingsGenerated, (parseReports 0 w.lines).length⟩ := by
    simp [loadReports, h1, h2, h3, hfilter]
  refine ⟨by rw [heq], by simp [areReportsLoaded, heq, h1], ?_⟩
  intro sim embed2 q k
  simp [retrieveRelevantReports, heq, h1]

theorem loadReports_zero_embeddings_fatal_witness :
    (Store.init.isLoaded = false ∧
      (⟨true, lineA, .ok (), embedFail⟩ : LoadWorld).fileExists = true ∧
      (⟨true, lineA, .ok (), embedFail⟩ : LoadWorld).modelInit = .ok () ∧
      ∀ r ∈ embedLoop embedFail 0 (parseReports 0 lineA), r.embedding = []) ∧
    ((loadReports Store.init ⟨true, lineA, .ok (), embedFail⟩).result =
        .error .noEmbeddingsGenerated ∧
      areReportsLoaded (loadReports Store.init ⟨true, lineA, .ok (), embedFail⟩).store = false ∧
      ∀ sim embed2 q k,
        (retrieveRelevantReports sim
            (loadReports Store.init ⟨true, lineA, .ok (), embedFail⟩).store embed2 q k).result =
          .error .reportsNotLoaded) :=
  ⟨⟨by decide, by decide, by decide, by decide⟩,
    loadReports_zero_embeddings_fatal Store.init ⟨true, lineA, .ok (), embedFail⟩
      (by decide) (by decide) (by decide) (by decide)⟩

/-- C7: when at least one record's embedding succeeds, `loadReports`
completes successfully with the store loaded, every record whose
embedding call failed is retained at its position with an empty
embedding, and a retrieval on the resulting store never returns a report
whose embedding is empty, for any query and any k. -/
theorem loadReports_per_record_failure_tolerated (st : Store) (w : LoadWorld)
    (h1 : st.isLoaded = false) (h2 : w.fileExists = true) (h3 : w.modelInit = .ok ())
    (h4 : ∃ r ∈ embedLoop w.embed 0 (parseReports 0 w.lines), r.embedding ≠ []) :
    (loadReports st w).result = .ok () ∧
    areReportsLoaded (loadReports st w).store = true ∧
    (∀ j r e, (parseReports 0 w.lines)[j]? = some r → w.embed j r.text = .error e →
      (loadReports st w).store.reports[j]? = some { r with embedding := [] }) ∧
    (∀ sim embed2 q k res,
      (retrieveRelevantReports sim (loadReports st w).store embed2 q k).result = .ok res →
      ∀ s ∈ res, s.embedding ≠ []) := by
  have hfilter :
      ((embedLoop w.embed 0 (parseReports 0 w.lines)).filter
        (fun r => 0 < r.embedding.length)).length ≠ 0 := by
    obtain ⟨r, hr, hne⟩ := h4
    have hmem : r ∈ (embedLoop w.embed 0 (parseReports 0 w.lines)).filter
        (fun r => 0 < r.embedding.length) :=
      List.mem_filter.mpr ⟨hr, by simp [List.length_pos, hne]⟩
    intro h0
    rw [List.length_eq_zero] at h0
    rw [h0] at hmem
    exact List.not_mem_nil _ hmem
  have heq : loadReports st w =
      ⟨{ st with
          reports := embedLoop w.embed 0 (parseReports 0 w.lines),
          hasModel := true,
          isLoaded := true },
        .ok (), (parseReports 0 w.lines).length⟩ := by
    simp [loadReports, h1, h2, h3, hfilter]
  refine ⟨by rw [heq], by simp [areReportsLoaded, heq], ?_, ?_⟩
  · intro j r e hj he
    rw [heq]
    simp only
    rw [embedLoop_getElem w.embed _ 0 j]
    simp [hj, he]
  · intro sim embed2 q k res hres s hs
    have hpos := (retrieve_ok_mem sim _ embed2 q k res hres s hs).2
    intro hemp
    rw [hemp] at hpos
    simp at hpos

theorem loadReports_per_record_failure_tolerated_witness :
    (Store.init.isLoaded = false ∧
      (⟨true, linesAB, .ok (), embedRateLimitedOnce⟩ : LoadWorld).fileExists = true ∧
      (⟨true, linesAB, .ok (), embedRateLimitedOnce⟩ : LoadWorld).modelInit = .ok () ∧
      ∃ r ∈ embedLoop embedRateLimitedOnce 0 (parseReports 0 linesAB), r.embedding ≠ []) ∧
    ((loadReports Store.init ⟨true, linesAB, .ok (), embedRateLimitedOnce⟩).result = .ok () ∧
      areReportsLoaded
        (loadReports Store.init ⟨true, linesAB, .ok (), embedRateLimitedOnce⟩).store = true ∧
      (∀ j r e, (parseReports 0 linesAB)[j]? = some r →
        embedRateLimitedOnce j r.text = .error e →
        (loadReports Store.init
          ⟨true, linesAB, .ok (), embedRateLimitedOnce⟩).store.reports[j]? =
            some { r with embedding := [] }) ∧
      (∀ sim embed2 q k res,
        (retrieveRelevantReports sim
          (loadReports Store.init ⟨true, linesAB, .ok (), embedRateLimitedOnce⟩).store
            embed2 q k).result = .ok res →
        ∀ s ∈ res, s.embedding ≠ [])) :=
  ⟨⟨by decide, by decide, by decide, by decide⟩,
    loadReports_per_record_failure_tolerated Store.init
      ⟨true, linesAB, .ok (), embedRateLimitedOnce⟩
      (by decide) (by decide) (by decide) (by decide)⟩

/-- C3 counterexample: the claim says an empty or whitespace-only query
fails with an invalid-query error before and without any embedding call.
In fact `retrieveRelevantReports` never inspects the query: on a loaded
store both `""` and `"   "` make one embedding call and return a normal
result. -/
theorem retrieve_empty_query_not_rejected :
    (retrieveRelevantReports sim0 stLoaded2 embedOk1 "" 3).embedCalls = 1 ∧
    (retrieveRelevantReports sim0 stLoaded2 embedOk1 "" 3).result =
      .ok [⟨⟨0, "a", [1]⟩, 0⟩, ⟨⟨1, "b", [1]⟩, 0⟩] ∧
    (retrieveRelevantReports sim0 stLoaded2 embedOk1 "   " 3).embedCalls = 1 ∧
    (retrieveRelevantReports sim0 stLoaded2 embedOk1 "   " 3).result =
      .ok [⟨⟨0, "a", [1]⟩, 0⟩, ⟨⟨1, "b", [1]⟩, 0⟩] := by
  decide

/-- C3 amended: `retrieveRelevantReports` performs no query validation;
whenever the store is loaded and the model available it makes exactly one
embedding call, whatever the query string (empty and whitespace-only
included); the only failures raised before the embedding call are the
not-loaded and model-unavailable errors. -/
theorem retrieve_no_query_validation (sim : List ℚ → List ℚ → ℚ) (st : Store)
    (embed : Nat → String → Except EmbedErr (List ℚ)) (q : String) (k : ℤ)
    (hL : st.isLoaded = true) (hM : st.hasModel = true) :
    (retrieveRelevantReports sim st embed q k).embedCalls = 1 := by
  unfold retrieveRelevantReports
  rw [if_neg (by simp [hL]), if_neg (by simp [hM])]
  cases hE : embed 0 q with
  | error e => rfl
  | ok v =>
    dsimp only
    split <;> rfl

theorem retrieve_no_query_validation_witness :
    (stLoaded2.isLoaded = true ∧ stLoaded2.hasModel = true) ∧
    (retrieveRelevantReports sim0 stLoaded2 embedOk1 "" 3).embedCalls = 1 :=
  ⟨⟨by decide, by decide⟩,
    retrieve_no_query_validation sim0 stLoaded2 embedOk1 "" 3 (by decide) (by decide)⟩

/-- C2 counterexample: the claim says every `k ≤ 0` yields an empty
result.  For `k = -1` on a loaded two-report corpus, `slice(0, -1)`
counts from the end of the array, so the call returns one report, not
zero. -/
theorem retrieve_negative_k_not_empty :
    (-1 : ℤ) ≤ 0 ∧
    (retrieveRelevantReports sim0 stLoaded2 embedOk1 "q" (-1)).result =
      .ok [⟨⟨0, "a", [1]⟩, 0⟩] ∧
    (retrieveRelevantReports sim0 stLoaded2 embedOk1 "q" (-1)).result ≠ .ok [] := by
  decide

/-- C2 amended: with `n` valid reports, a successful retrieval returns a
list of length `(n + k).toNat` when `k < 0` (JS `slice` counts a negative
end from the end of the array, clamped at 0 — so `k = 0` still yields the
empty list) and `min k n` when `k ≥ 0` — in particular all `n` valid
reports, without error, when `k > n`. -/
theorem retrieve_k_clamping (sim : List ℚ → List ℚ → ℚ) (st : Store)
    (embed : Nat → String → Except EmbedErr (List ℚ)) (q : String) (k : ℤ)
    (hL : st.isLoaded = true) (hM : st.hasModel = true)
    (qv : List ℚ) (hq : embed 0 q = .ok qv)
    (hv : (validReports st).length ≠ 0) :
    ∃ res, (retrieveRelevantReports sim st embed q k).result = .ok res ∧
      res.length = if k < 0 then (((validReports st).length : ℤ) + k).toNat
                   else min k.toNat (validReports st).length := by
  have heq : (retrieveRelevantReports sim st embed q k).result =
      .ok (jsSliceZeroTo ((scoredReports sim qv st).insertionSort scoreGE) k) := by
    unfold retrieveRelevantReports
    rw [if_neg (by simp [hL]), if_neg (by simp [hM]), hq]
    dsimp only
    rw [if_neg hv]
  refine ⟨_, heq, ?_⟩
  have hlen : ((scoredReports sim qv st).insertionSort scoreGE).length =
      (validReports st).length := by
    rw [List.length_insertionSort, scoredReports, List.length_map]
  by_cases hk : k < 0
  · rw [if_pos hk, jsSliceZeroTo_length_neg _ _ hk, hlen]
  · rw [if_neg hk, jsSliceZeroTo_of_nonneg _ _ (by omega), List.length_take, hlen]

theorem retrieve_k_clamping_witness :
    (stLoaded2.isLoaded = true ∧ stLoaded2.hasModel = true ∧
      embedOk1 0 "q" = .ok [1] ∧ (validReports stLoaded2).length ≠ 0) ∧
    ∃ res, (retrieveRelevantReports sim0 stLoaded2 embedOk1 "q" 100).result = .ok res ∧
      res.length = if (100 : ℤ) < 0 then (((validReports stLoaded2).length : ℤ) + 100).toNat
                   else min (100 : ℤ).toNat (validReports stLoaded2).length :=
  ⟨⟨by decide, by decide, by decide, by decide⟩,
    retrieve_k_clamping sim0 stLoaded2 embedOk1 "q" 100 (by decide) (by decide)
      [1] (by decide) (by decide)⟩

/-- C5 counterexample: the claim says a rate-limited embedding call is
retried at least once before the record is given up on.  With an oracle
whose first call fails with a rate-limit signal and whose every later
call succeeds (so one retry would have recovered record 0), the loader
makes exactly one call per record (2 in total for 2 records) and
immediately degrades record 0 to an empty embedding. -/
theorem loadReports_rate_limit_no_retry_cex :
    loadReports Store.init ⟨true, linesAB, .ok (), embedRateLimitedOnce⟩ =
      ⟨⟨[⟨0, "a", []⟩, ⟨1, "b", [1]⟩], true, true⟩, .ok (), 2⟩ ∧
    embedRateLimitedOnce 0 "a" = .error .rateLimited ∧
    embedRateLimitedOnce 1 "a" = .ok [1] ∧
    embedRateLimitedOnce 2 "a" = .ok [1] := by
  decide

/-- C5 amended: the loader never backs off or retries: each parsed record
receives exactly one embedding call (the call count equals the number of
parsed records), and a record whose single call fails — rate-limited or
otherwise — is immediately degraded to an empty embedding, non-fatally
for the rest of the load. -/
theorem loadReports_no_retry (st : Store) (w : LoadWorld)
    (h1 : st.isLoaded = false) (h2 : w.fileExists = true) (h3 : w.modelInit = .ok ()) :
    (loadReports st w).embedCalls = (parseReports 0 w.lines).length ∧
    (loadReports st w).store.reports = embedLoop w.embed 0 (parseReports 0 w.lines) ∧
    ∀ j : Nat, (embedLoop w.embed 0 (parseReports 0 w.lines))[j]? =
      ((parseReports 0 w.lines)[j]?).map fun r =>
        match w.embed j r.text with
        | .ok v => { r with embedding := v }
        | .error _ => { r with embedding := [] } := by
  have key : (loadReports st w).embedCalls = (parseReports 0 w.lines).length ∧
      (loadReports st w).store.reports = embedLoop w.embed 0 (parseReports 0 w.lines) := by
    unfold loadReports
    rw [if_neg (by simp [h1]), if_neg (by simp [h2]), h3]
    dsimp only
    split <;> exact ⟨rfl, rfl⟩
  refine ⟨key.1, key.2, ?_⟩
  intro j
  rw [embedLoop_getElem w.embed _ 0 j]
  simp only [Nat.zero_add]

theorem loadReports_no_retry_witness :
    (Store.init.isLoaded = false ∧
      (⟨true, linesAB, .ok (), embedRateLimitedOnce⟩ : LoadWorld).fileExists = true ∧
      (⟨true, linesAB, .ok (), embedRateLimitedOnce⟩ : LoadWorld).modelInit = .ok ()) ∧
    ((loadReports Store.init ⟨true, linesAB, .ok (), embedRateLimitedOnce⟩).embedCalls =
        (parseReports 0 linesAB).length ∧
      (loadReports Store.init ⟨true, linesAB, .ok (), embedRateLimitedOnce⟩).store.reports =
        embedLoop embedRateLimitedOnce 0 (parseReports 0 linesAB) ∧
      ∀ j : Nat, (embedLoop embedRateLimitedOnce 0 (parseReports 0 linesAB))[j]? =
        ((parseReports 0 linesAB)[j]?).map fun r =>
          match embedRateLimitedOnce j r.text with
          | .ok v => { r with embedding := v }
          | .error _ => { r with embedding := [] }) :=
  ⟨⟨by decide, by decide, by decide⟩,
    loadReports_no_retry Store.init ⟨true, linesAB, .ok (), embedRateLimitedOnce⟩
      (by decide) (by decide) (by decide)⟩

/-- C10: a `loadReports` run that fails past the parsing stage (embedding
model initialization failure, or zero successful embeddings) still leaves
the parsed records in the module store: `areReportsLoaded` is `false`
while `getReportCount` returns the number of parsed records — nonzero
whenever some line parsed to a report with non-empty trimmed text — so
the failed load is not atomic with respect to the diagnostic
accessors. -/
theorem loadReports_failure_not_atomic (st : Store) (w : LoadWorld)
    (h1 : st.isLoaded = false) (h2 : w.fileExists = true)
    (h3 : (∃ msg, w.modelInit = .error msg) ∨
      (w.modelInit = .ok () ∧
        ∀ r ∈ embedLoop w.embed 0 (parseReports 0 w.lines), r.embedding = [])) :
    (loadReports st w).result ≠ .ok () ∧
    areReportsLoaded (loadReports st w).store = false ∧
    getReportCount (loadReports st w).store = (parseReports 0 w.lines).length ∧
    (∀ obj, some obj ∈ w.lines → jsTrim (jsOrString obj.ContentText obj.text) ≠ "" →
      0 < getReportCount (loadReports st w).store) := by
  rcases h3 with ⟨msg, hm⟩ | ⟨hm, hall⟩
  · have heq : loadReports st w =
        ⟨{ st with reports := parseReports 0 w.lines },
          .error (.modelLoadFailed msg), 0⟩ := by
      simp [loadReports, h1, h2, hm]
    refine ⟨by simp [heq], by simp [areReportsLoaded, heq, h1],
      by simp [getReportCount, heq], ?_⟩
    intro obj hobj hne
    simp only [getReportCount, heq]
    exact parseReports_length_pos 0 w.lines obj hobj hne
  · have hfilter :
        (embedLoop w.embed 0 (parseReports 0 w.lines)).filter
          (fun r => 0 < r.embedding.length) = [] := by
      rw [List.filter_eq_nil_iff]
      intro r hr
      simp [hall r hr]
    have heq : loadReports st w =
        ⟨{ st with reports := embedLoop w.embed 0 (parseReports 0 w.lines), hasModel := true },
          .error .noEmbeddingsGenerated, (parseReports 0 w.lines).length⟩ := by
      simp [loadReports, h1, h2, hm, hfilter]
    refine ⟨by simp [heq], by simp [areReportsLoaded, heq, h1],
      by simp [getReportCount, heq, embedLoop_length], ?_⟩
    intro obj hobj hne
    simp only [getReportCount, heq, embedLoop_length]
    exact parseReports_length_pos 0 w.lines obj hobj hne

theorem loadReports_failure_not_atomic_witness :
    (Store.init.isLoaded = false ∧
      (⟨true, lineA, .error "init failed", embedOk1⟩ : LoadWorld).fileExists = true) ∧
    ((loadReports Store.init ⟨true, lineA, .error "init failed", embedOk1⟩).result ≠ .ok () ∧
      areReportsLoaded
        (loadReports Store.init ⟨true, lineA, .error "init failed", embedOk1⟩).store = false ∧
      getReportCount
        (loadReports Store.init ⟨true, lineA, .error "init failed", embedOk1⟩).store =
          (parseReports 0 lineA).length ∧
      (∀ obj, some obj ∈ lineA → jsTrim (jsOrString obj.ContentText obj.text) ≠ "" →
        0 < getReportCount
          (loadReports Store.init ⟨true, lineA, .error "init failed", embedOk1⟩).store)) :=
  ⟨⟨by decide, by decide⟩,
    loadReports_failure_not_atomic Store.init ⟨true, lineA, .error "init failed", embedOk1⟩
      (by decide) (by decide) (Or.inl ⟨"init failed", rfl⟩)⟩

/-- C4: the similarity primitive applied to a zero-norm vector and any
other vector returns 0 (no NaN, no exception); in particular on
`[0,0,0]` and `[1,2,3]` it returns 0.  The primitive is the spec-modelled
`cosineSimilarity` (the npm package source is not in the repository); the
spec's zero-norm guard makes the result independent of the square-root
implementation. -/
theorem cosineSimilarity_zero_norm (sqrt : ℚ → ℚ) (a b : List ℚ)
    (h : normSq a = 0 ∨ normSq b = 0) : cosineSimilarity sqrt a b = 0 := by
  unfold cosineSimilarity
  rw [if_pos h]

theorem cosineSimilarity_zero_norm_witness :
    normSq [0, 0, 0] = 0 ∧ cosineSimilarity id [0, 0, 0] [1, 2, 3] = 0 :=
  have h0 : normSq ([0, 0, 0] : List ℚ) = 0 := by
    norm_num [normSq, dotList, List.zip_cons_cons]
  ⟨h0, cosineSimilarity_zero_norm id [0, 0, 0] [1, 2, 3] (Or.inl h0)⟩

/-- C9 counterexample: the claim says the returned entries are copies
whose mutation cannot alter the store.  In the reference model the single
returned entry carries `embedding` reference 0 — the very same array
reference held by the stored report (the spread `{ ...r, score }` copies
the reference, not the array).  Writing through that reference (e.g.
pushing 5 onto the returned entry's embedding array, modelled by
`heap1.set 0 [1, 5]`) changes what the stored report's embedding
dereferences to, from `[1]` to `[1, 5]`. -/
theorem retrieve_result_aliases_store :
    (retrieveRelevantReportsRef sim0 stRef1 heap1 embedOk1 "q" 3).result =
      .ok [⟨⟨0, "a", 0⟩, 0⟩] ∧
    stRef1.reports = [⟨0, "a", 0⟩] ∧
    deref heap1 0 = [1] ∧
    deref (heap1.set 0 [1, 5]) 0 = [1, 5] := by
  decide

/-- C9 amended: `retrieveRelevantReports` is read-only — it leaves the
module store and every embedding array unchanged — and each returned
entry is a fresh top-level object, but its `embedding` field is the same
array reference as a stored report's (a shallow copy), so mutating that
array through a returned entry alters the store. -/
theorem retrieveRef_readonly_shallow_copy (sim : List ℚ → List ℚ → ℚ) (st : RefStore)
    (heap : List (List ℚ)) (embed : Nat → String → Except EmbedErr (List ℚ))
    (q : String) (k : ℤ) :
    (retrieveRelevantReportsRef sim st heap embed q k).store = st ∧
    (retrieveRelevantReportsRef sim st heap embed q k).heap = heap ∧
    ∀ res, (retrieveRelevantReportsRef sim st heap embed q k).result = .ok res →
      ∀ s ∈ res, s.toRefReport ∈ st.reports := by
  have hframe : (retrieveRelevantReportsRef sim st heap embed q k).store = st ∧
      (retrieveRelevantReportsRef sim st heap embed q k).heap = heap := by
    by_cases hL : st.isLoaded = false
    · simp [retrieveRelevantReportsRef, hL]
    · by_cases hM : st.hasModel = false
      · simp [retrieveRelevantReportsRef, hL, hM]
      · cases hE : embed 0 q with
        | error e => simp [retrieveRelevantReportsRef, hL, hM, hE]
        | ok v =>
          by_cases hv : (validRefReports heap st).length = 0 <;>
            simp [retrieveRelevantReportsRef, hL, hM, hE, hv]
  exact ⟨hframe.1, hframe.2,
    fun res h s hs => retrieveRef_ok_mem sim st heap embed q k res h s hs⟩

theorem retrieveRef_readonly_shallow_copy_witness :
    (retrieveRelevantReportsRef sim0 stRef1 heap1 embedOk1 "q" 3).store = stRef1 ∧
    (retrieveRelevantReportsRef sim0 stRef1 heap1 embedOk1 "q" 3).heap = heap1 ∧
    ∀ res, (retrieveRelevantReportsRef sim0 stRef1 heap1 embedOk1 "q" 3).result = .ok res →
      ∀ s ∈ res, s.toRefReport ∈ stRef1.reports :=
  retrieveRef_readonly_shallow_copy sim0 stRef1 heap1 embedOk1 "q" 3

/-- C1: on a loaded store with the model available, whenever the query
embedding succeeds, there is at least one valid report and `k ≥ 0`, the
retrieval returns exactly the first `min(k, number of valid reports)`
entries of the stable descending-score sort of the scored valid reports.
Consequently: the result's length is `min(k, valid)`, its scores are
non-increasing, it is (as a sub-multiset) drawn from the scored corpus,
every scored report left out scores no higher than every returned one,
and any two entries already in descending-score position in corpus order
(ties included) keep their relative order in the sorted sequence — the
stable tie-break.  The statement holds for every similarity function
`sim`, in particular for the cosine-similarity primitive the code passes;
the output is a function of the inputs, hence deterministic for a fixed
embedding function. -/
theorem retrieve_topk_correct (sim : List ℚ → List ℚ → ℚ) (st : Store)
    (embed : Nat → String → Except EmbedErr (List ℚ)) (q : String) (k : ℤ)
    (hL : st.isLoaded = true) (hM : st.hasModel = true)
    (qv : List ℚ) (hq : embed 0 q = .ok qv)
    (hk : 0 ≤ k) (hv : validReports st ≠ []) :
    ∃ res, (retrieveRelevantReports sim st embed q k).result = .ok res ∧
      res = ((scoredReports sim qv st).insertionSort scoreGE).take k.toNat ∧
      res.length = min k.toNat (validReports st).length ∧
      List.Pairwise scoreGE res ∧
      List.Subperm res (scoredReports sim qv st) ∧
      (∀ s ∈ scoredReports sim qv st, s ∉ res → ∀ t ∈ res, s.score ≤ t.score) ∧
      (∀ a b : ScoredReport, List.Sublist [a, b] (scoredReports sim qv st) →
        b.score ≤ a.score →
        List.Sublist [a, b] ((scoredReports sim qv st).insertionSort scoreGE)) := by
  have hvlen : (validReports st).length ≠ 0 := fun h0 => hv (List.length_eq_zero.mp h0)
  have heq : (retrieveRelevantReports sim st embed q k).result =
      .ok (jsSliceZeroTo ((scoredReports sim qv st).insertionSort scoreGE) k) := by
    unfold retrieveRelevantReports
    rw [if_neg (by simp [hL]), if_neg (by simp [hM]), hq]
    dsimp only
    rw [if_neg hvlen]
  have hslice : jsSliceZeroTo ((scoredReports sim qv st).insertionSort scoreGE) k =
      ((scoredReports sim qv st).insertionSort scoreGE).take k.toNat :=
    jsSliceZeroTo_of_nonneg _ _ hk
  have hsorted : List.Pairwise scoreGE ((scoredReports sim qv st).insertionSort scoreGE) :=
    List.sorted_insertionSort scoreGE (scoredReports sim qv st)
  have hlen : ((scoredReports sim qv st).insertionSort scoreGE).length =
      (validReports st).length := by
    rw [List.length_insertionSort]
    simp [scoredReports]
  refine ⟨_, heq, hslice, ?_, ?_, ?_, ?_, ?_⟩
  · rw [hslice, List.length_take, hlen]
  · rw [hslice]
    exact List.Pairwise.sublist (List.take_sublist ..) hsorted
  · exact ((jsSliceZeroTo_sublist _ _).subperm).trans
      (List.perm_insertionSort scoreGE _).subperm
  · intro s hs hnotin t ht
    rw [hslice] at hnotin ht
    have hs' : s ∈ (scoredReports sim qv st).insertionSort scoreGE :=
      (List.mem_insertionSort scoreGE).mpr hs
    have hsplit := List.take_append_drop k.toNat
      ((scoredReports sim qv st).insertionSort scoreGE)
    have hs2 : s ∈ ((scoredReports sim qv st).insertionSort scoreGE).drop k.toNat := by
      rcases List.mem_append.mp (by rw [hsplit]; exact hs') with h | h
      · exact absurd h hnotin
      · exact h
    have hpw : List.Pairwise scoreGE
        (((scoredReports sim qv st).insertionSort scoreGE).take k.toNat ++
          ((scoredReports sim qv st).insertionSort scoreGE).drop k.toNat) := by
      rw [hsplit]
      exact hsorted
    exact (List.pairwise_append.mp hpw).2.2 t ht s hs2
  · intro a b hab hba
    exact List.pair_sublist_insertionSort hba hab

theorem retrieve_topk_correct_witness :
    (stLoaded2.isLoaded = true ∧ stLoaded2.hasModel = true ∧
      embedOk1 0 "q" = .ok [1] ∧ (0 : ℤ) ≤ 1 ∧ validReports stLoaded2 ≠ []) ∧
    ∃ res, (retrieveRelevantReports sim0 stLoaded2 embedOk1 "q" 1).result = .ok res ∧
      res = ((scoredReports sim0 [1] stLoaded2).insertionSort scoreGE).take (1 : ℤ).toNat ∧
      res.length = min (1 : ℤ).toNat (validReports stLoaded2).length ∧
      List.Pairwise scoreGE res ∧
      List.Subperm res (scoredReports sim0 [1] stLoaded2) ∧
      (∀ s ∈ scoredReports sim0 [1] stLoaded2, s ∉ res → ∀ t ∈ res, s.score ≤ t.score) ∧
      (∀ a b : ScoredReport, List.Sublist [a, b] (scoredReports sim0 [1] stLoaded2) →
        b.score ≤ a.score →
        List.Sublist [a, b] ((scoredReports sim0 [1] stLoaded2).insertionSort scoreGE)) :=
  ⟨⟨by decide, by decide, by decide, by decide, by decide⟩,
    retrieve_topk_correct sim0 stLoaded2 embedOk1 "q" 1 (by decide) (by decide)
      [1] (by decide) (by decide) (by decide)⟩

end GuideBot
